import Mathlib

/-!
Verification of the README-generator pipeline: a shallow embedding of the
analyzer (`generator.py`) — file classification, directory traversal with
ignore rules, dependency-manifest parsing, section rendering, and the
orchestrator — together with theorems settling the specification's claims.
-/

/-! ## Python string primitives used by the code -/

/-- Python `needle in haystack` on strings: substring containment. -/
def pyIn (needle haystack : String) : Bool :=
  decide (needle.toList <:+: haystack.toList)

/-- Python `s.endswith(sfx)`. -/
def pyEndsWith (s sfx : String) : Bool :=
  sfx.toList.isSuffixOf s.toList

/-- Python `s.endswith((sfx1, sfx2, ...))`. -/
def pyEndsWithAny (s : String) (sfxs : List String) : Bool :=
  sfxs.any (fun sfx => pyEndsWith s sfx)

/-- Python `s.startswith(p)`. -/
def pyStartsWith (s p : String) : Bool :=
  p.toList.isPrefixOf s.toList

/-- Whitespace characters removed by Python `str.strip()` (ASCII range). -/
def isPySpace (c : Char) : Bool :=
  c = ' ' || c = '\t' || c = '\n' || c = '\r' || c = '\x0b' || c = '\x0c'

/-- Strip leading and trailing whitespace from a character list. -/
def pyStripList (l : List Char) : List Char :=
  ((l.dropWhile isPySpace).reverse.dropWhile isPySpace).reverse

/-- Python `s.strip()`. -/
def pyStrip (s : String) : String :=
  ⟨pyStripList s.toList⟩

/-- Helper for `pyReadlines`: accumulate the current line (reversed). -/
def pyReadlinesAux : List Char → List Char → List String
  | [], acc => if acc.isEmpty then [] else [⟨acc.reverse⟩]
  | c :: rest, acc =>
    if c = '\n' then ⟨(c :: acc).reverse⟩ :: pyReadlinesAux rest []
    else pyReadlinesAux rest (c :: acc)

/-- Python `f.readlines()`: split into lines, keeping the newline terminators. -/
def pyReadlines (s : String) : List String :=
  pyReadlinesAux s.toList []

/-! ## FileClassifier: `ProjectAnalyzer._categorize_file` -/

/-- Embedding of `ProjectAnalyzer._categorize_file`: the if/elif suffix chain. -/
def _categorize_file (file : String) : String :=
  if pyEndsWith file ".py" then "python_files"
  else if pyEndsWithAny file [".js", ".ts", ".jsx", ".tsx"] then "javascript_files"
  else if pyEndsWithAny file [".html", ".htm"] then "html_files"
  else if pyEndsWithAny file [".css", ".scss", ".sass"] then "css_files"
  else if pyEndsWithAny file [".json", ".yaml", ".yml", ".toml", ".ini", ".cfg"] then "config_files"
  else if pyEndsWithAny file [".md", ".txt", ".rst"] then "documentation"
  else "other_files"

/-- The seven category keys of the structure dictionary. -/
def categoryNames : List String :=
  ["python_files", "javascript_files", "html_files", "css_files",
   "config_files", "documentation", "other_files"]

/-- Modelled from the spec: classification as an explicit ordered list of
predicate/category pairs evaluated top to bottom, first match wins. -/
def classifierRules : List ((String → Bool) × String) :=
  [ (fun f => pyEndsWith f ".py", "python_files"),
    (fun f => pyEndsWithAny f [".js", ".ts", ".jsx", ".tsx"], "javascript_files"),
    (fun f => pyEndsWithAny f [".html", ".htm"], "html_files"),
    (fun f => pyEndsWithAny f [".css", ".scss", ".sass"], "css_files"),
    (fun f => pyEndsWithAny f [".json", ".yaml", ".yml", ".toml", ".ini", ".cfg"], "config_files"),
    (fun f => pyEndsWithAny f [".md", ".txt", ".rst"], "documentation") ]

/-- Modelled from the spec: the first matching rule's category, else "other". -/
def classifySpec (f : String) : String :=
  ((classifierRules.find? (fun r => r.1 f)).map (fun r => r.2)).getD "other_files"

/-! ## DirectoryWalker: `ProjectAnalyzer.get_file_structure` -/

/-- The `ignore_patterns` set from `ProjectAnalyzer.__init__`. -/
def ignorePatterns : List String :=
  [".git", "__pycache__", ".pytest_cache", ".venv", "venv", "node_modules",
   ".DS_Store", "*.pyc", "*.pyo", "*.pyd", ".coverage", ".tox",
   ".mypy_cache", ".ruff_cache"]

/-- The per-file skip test from `get_file_structure`:
`any(pattern in file for pattern in self.ignore_patterns)`. -/
def skipFile (file : String) : Bool :=
  ignorePatterns.any (fun pat => pyIn pat file)

/-- A directory tree: name, subdirectories, plain file names. -/
inductive FSTree where
  | dir (name : String) (subdirs : List FSTree) (files : List String)

/-- Name of a directory node. -/
def FSTree.name : FSTree → String
  | .dir n _ _ => n

/-- Relative-path join, as produced by `Path(root) / file` relative to the root. -/
def joinPath (base file : String) : String :=
  if base = "" then file else base ++ "/" ++ file

mutual

/-- Embedding of the `os.walk` loop of `get_file_structure`: the
(relative path, file name) pairs of the non-skipped files, in walk order
(the root's files first, then each non-pruned subdirectory in order). -/
def walkEntries (base : String) : FSTree → List (String × String)
  | .dir _ subdirs files =>
    (files.filter (fun f => !skipFile f)).map (fun f => (joinPath base f, f))
      ++ walkSubdirs base subdirs

/-- Walk the subdirectory list, pruning names in `ignorePatterns`
(the `dirs[:] = [d for d in dirs if d not in self.ignore_patterns]` step). -/
def walkSubdirs (base : String) : List FSTree → List (String × String)
  | [] => []
  | d :: ds =>
    (if ignorePatterns.contains d.name then []
     else walkEntries (joinPath base d.name) d)
      ++ walkSubdirs base ds

end

/-- The structure dictionary of `get_file_structure`, seven fixed keys. -/
structure FileStructure where
  python_files : List String
  javascript_files : List String
  html_files : List String
  css_files : List String
  config_files : List String
  documentation : List String
  other_files : List String
deriving DecidableEq

/-- The initial structure dictionary: every category empty. -/
def emptyStructure : FileStructure :=
  ⟨[], [], [], [], [], [], []⟩

/-- One `structure[category].append(path)` step. The final branch is
unreachable because `_categorize_file` only returns the seven keys. -/
def addFile (st : FileStructure) (category path : String) : FileStructure :=
  if category = "python_files" then { st with python_files := st.python_files ++ [path] }
  else if category = "javascript_files" then { st with javascript_files := st.javascript_files ++ [path] }
  else if category = "html_files" then { st with html_files := st.html_files ++ [path] }
  else if category = "css_files" then { st with css_files := st.css_files ++ [path] }
  else if category = "config_files" then { st with config_files := st.config_files ++ [path] }
  else if category = "documentation" then { st with documentation := st.documentation ++ [path] }
  else if category = "other_files" then { st with other_files := st.other_files ++ [path] }
  else st

/-- Fold the walked entries into the structure dictionary. -/
def buildStructure (entries : List (String × String)) : FileStructure :=
  entries.foldl (fun st e => addFile st (_categorize_file e.2) e.1) emptyStructure

/-- Embedding of `ProjectAnalyzer.get_file_structure`. -/
def get_file_structure (t : FSTree) : FileStructure :=
  buildStructure (walkEntries "" t)

/-! ## DependencyExtractor: `ProjectAnalyzer.get_dependencies` and parsers -/

/-- The characters split on by `re.split(r"[<>=!~]", line)`. -/
def specChars : List Char := ['<', '>', '=', '!', '~']

/-- First field of `re.split(r"[<>=!~]", s)`: the text before the first
occurrence of any of the five operator characters. -/
def reSplitFirst (s : String) : String :=
  ⟨s.toList.takeWhile (fun c => !specChars.contains c)⟩

/-- The name-extraction step `re.split(r"[<>=!~]", line)[0].strip()`. -/
def stripSpecifier (s : String) : String :=
  pyStrip (reSplitFirst s)

/-- Embedding of `ProjectAnalyzer._parse_requirements_txt` on the file's
text content (the file read is modelled by passing the content). -/
def _parse_requirements_txt (content : String) : List String :=
  (pyReadlines content).foldl
    (fun deps line =>
      let l := pyStrip line
      if l != "" && !(pyStartsWith l "#") then deps ++ [stripSpecifier l] else deps)
    []

/-- Embedding of `ProjectAnalyzer._parse_pyproject_toml`. The TOML load is
abstracted: the argument is the `project.dependencies` list when the file
parses and has one; `none` models a missing section or a raised exception,
both of which yield `[]`. -/
def _parse_pyproject_toml (projectDeps : Option (List String)) : List String :=
  match projectDeps with
  | none => []
  | some deps => deps.map stripSpecifier

/-- The facts about the project root that `get_dependencies` consults for
the Python ecosystem: which manifest candidates exist, and the data behind
the two that are parsed.  `requirements_read = none` models a read that
raises (caught, yielding `[]`). -/
structure PyManifests where
  requirements_exists : Bool
  requirements_read : Option String
  pyproject_exists : Bool
  pyproject_data : Option (List String)
  setup_py_exists : Bool
  pipfile_exists : Bool

/-- Embedding of the Python-ecosystem part of `get_dependencies`: the
`for req_file in requirements_files: ... break` loop.  Only the first
existing candidate is consulted; `setup.py` and `Pipfile` are
existence-checked but never parsed, leaving the list empty. -/
def get_dependencies_python (m : PyManifests) : List String :=
  if m.requirements_exists then
    match m.requirements_read with
    | some content => _parse_requirements_txt content
    | none => []
  else if m.pyproject_exists then _parse_pyproject_toml m.pyproject_data
  else if m.setup_py_exists then []
  else if m.pipfile_exists then []
  else []

/-- The dependencies dictionary `{"python": [], "node": [], "other": []}`. -/
structure Dependencies where
  python : List String
  node : List String
  other : List String

/-! ## ContentAssembler: the section renderers -/

/-- Python `sorted(files)` on strings: stable sort by the `≤` order. -/
def pySorted (xs : List String) : List String :=
  xs.mergeSort (fun a b => decide (a ≤ b))

/-- Partial evaluation of `category.replace("_", " ").title()` on the seven
fixed category keys. -/
def categoryTitle : String → String
  | "python_files" => "Python Files"
  | "javascript_files" => "Javascript Files"
  | "html_files" => "Html Files"
  | "css_files" => "Css Files"
  | "config_files" => "Config Files"
  | "documentation" => "Documentation"
  | "other_files" => "Other Files"
  | s => s

/-- The `file_structure.items()` sequence, in dictionary insertion order. -/
def structureItems (st : FileStructure) : List (String × List String) :=
  [("python_files", st.python_files),
   ("javascript_files", st.javascript_files),
   ("html_files", st.html_files),
   ("css_files", st.css_files),
   ("config_files", st.config_files),
   ("documentation", st.documentation),
   ("other_files", st.other_files)]

/-- Embedding of `_generate_structure_section`. -/
def _generate_structure_section (st : FileStructure) : String :=
  let content := "## Project Structure\n\n" ++ "```\n"
  let content := (structureItems st).foldl
    (fun content item =>
      if item.2.isEmpty then content
      else
        let content := content ++ categoryTitle item.1 ++ ":\n"
        let content := ((pySorted item.2).take 10).foldl
          (fun content f => content ++ "  ├── " ++ f ++ "\n") content
        let content :=
          if item.2.length > 10 then
            content ++ "  └── ... and " ++ toString (item.2.length - 10) ++ " more files\n"
          else content
        content ++ "\n")
    content
  content ++ "```\n\n"

/-- Embedding of `_generate_dependencies_section`. -/
def _generate_dependencies_section (deps : Dependencies) : String :=
  if deps.python.isEmpty && deps.node.isEmpty && deps.other.isEmpty then ""
  else
    let content := "## Dependencies\n\n"
    let content :=
      if deps.python.isEmpty then content
      else
        let content := content ++ "### Python\n\n"
        let content := (deps.python.take 10).foldl
          (fun content dep => content ++ "- " ++ dep ++ "\n") content
        let content :=
          if deps.python.length > 10 then
            content ++ "- ... and " ++ toString (deps.python.length - 10) ++ " more\n"
          else content
        content ++ "\n"
    let content :=
      if deps.node.isEmpty then content
      else
        let content := content ++ "### Node.js\n\n"
        let content := (deps.node.take 10).foldl
          (fun content dep => content ++ "- " ++ dep ++ "\n") content
        let content :=
          if deps.node.length > 10 then
            content ++ "- ... and " ++ toString (deps.node.length - 10) ++ " more\n"
          else content
        content ++ "\n"
    content

/-- Embedding of `_generate_installation_section`. -/
def _generate_installation_section (deps : Dependencies) (st : FileStructure) : String :=
  let content := "## Installation\n\n"
  let content :=
    if deps.python.isEmpty then content
    else
      content ++ "### Python Dependencies\n\n" ++ "```bash\n"
        ++ (if st.config_files.any (fun f => pyEndsWith f "requirements.txt") then
              "pip install -r requirements.txt\n"
            else
              "pip install " ++ String.intercalate " " (deps.python.take 5) ++ "\n")
        ++ "```\n\n"
  let content :=
    if deps.node.isEmpty then content
    else content ++ "### Node.js Dependencies\n\n" ++ "```bash\n" ++ "npm install\n" ++ "```\n\n"
  content

/-- Embedding of `_generate_usage_section`. -/
def _generate_usage_section (main_files : List String) : String :=
  let content := "## Usage\n\n"
  if !main_files.isEmpty then
    content ++ "To run the project:\n\n" ++ "```bash\n"
      ++ (if main_files.contains "main.py" then "python main.py\n"
          else if main_files.contains "app.py" then "python app.py\n"
          else if main_files.contains "index.js" then "node index.js\n"
          else "python " ++ main_files.headD "" ++ "\n")
      ++ "```\n\n"
  else
    content ++ "```bash\n" ++ "# Add usage instructions here\n" ++ "```\n\n"

/-- Embedding of `_generate_readme_content`; the `datetime.now()` timestamp
is passed in as `ts`. -/
def _generate_readme_content (project_name : String) (st : FileStructure)
    (deps : Dependencies) (main_files : List String) (ts : String) : String :=
  "# " ++ project_name ++ "\n\n"
    ++ "## Description\n\n"
    ++ "A brief description of what this project does and who it's for.\n\n"
    ++ "## Features\n\n" ++ "- Feature 1\n" ++ "- Feature 2\n" ++ "- Feature 3\n\n"
    ++ _generate_installation_section deps st
    ++ _generate_usage_section main_files
    ++ _generate_structure_section st
    ++ _generate_dependencies_section deps
    ++ "## Contributing\n\n" ++ "Contributions are always welcome!\n\n"
    ++ "1. Fork the project\n"
    ++ "2. Create your feature branch (`git checkout -b feature/AmazingFeature`)\n"
    ++ "3. Commit your changes (`git commit -m 'Add some AmazingFeature'`)\n"
    ++ "4. Push to the branch (`git push origin feature/AmazingFeature`)\n"
    ++ "5. Open a Pull Request\n\n"
    ++ "## License\n\n"
    ++ "This project is licensed under the MIT License - see the [LICENSE](LICENSE) file for details.\n\n"
    ++ "---\n\n"
    ++ "*Generated on " ++ ts ++ "*\n"

/-! ## Orchestrator: `generate_readme` -/

/-- The fallible external steps of one `generate_readme` call, each as the
value it produces or the exception it raises: the four analysis calls
(collapsed into one `Except`, since any of them raising aborts the `try`
body the same way), the enhancement hook, and the final write.  `residue`
is the file content a failed write leaves behind. -/
structure GenEffects where
  analysis : Except String (String × FileStructure × Dependencies × List String)
  enhance : String → Except String String
  write_ok : Bool
  residue : Option String

/-- Embedding of `generate_readme`.  The output file's state is carried
explicitly: `output_before` is its content (`none` when absent), and the
second component of the result is its content afterwards.  The body of the
Python `try` is the inner `result`; the outer `match` is the
`except Exception` clause converting any raise into `False`. -/
def generate_readme (fx : GenEffects) (output_before : Option String)
    (force_overwrite use_ai_enhancement : Bool) (ts : String) :
    Except String Bool × Option String :=
  let result : Except String Bool × Option String :=
    if output_before.isSome && !force_overwrite then (Except.ok false, output_before)
    else
      match fx.analysis with
      | .error e => (Except.error e, output_before)
      | .ok (project_name, st, deps, main_files) =>
        let content := _generate_readme_content project_name st deps main_files ts
        let content :=
          if use_ai_enhancement then
            match fx.enhance content with
            | .ok enhanced => enhanced
            | .error _ => content
          else content
        if fx.write_ok then (Except.ok true, some content)
        else (Except.error "write failed", fx.residue)
  match result with
  | (.ok b, w) => (.ok b, w)
  | (.error _, w) => (.ok false, w)

/-! ## Claim theorems -/

/-- C1: file classification is a total partition decided by a fixed priority
order — for every file path string, `_categorize_file` returns exactly one of
the seven category keys (so no file lands in zero or two categories), and its
result is the category of the first matching suffix rule in the fixed order
(python, javascript, html, css, config, documentation, other). -/
theorem categorize_total_first_match_wins (f : String) :
    _categorize_file f = classifySpec f ∧ _categorize_file f ∈ categoryNames := by
  by_cases h1 : pyEndsWith f ".py" = true <;>
  by_cases h2 : pyEndsWithAny f [".js", ".ts", ".jsx", ".tsx"] = true <;>
  by_cases h3 : pyEndsWithAny f [".html", ".htm"] = true <;>
  by_cases h4 : pyEndsWithAny f [".css", ".scss", ".sass"] = true <;>
  by_cases h5 : pyEndsWithAny f [".json", ".yaml", ".yml", ".toml", ".ini", ".cfg"] = true <;>
  by_cases h6 : pyEndsWithAny f [".md", ".txt", ".rst"] = true <;>
  simp [_categorize_file, classifySpec, classifierRules, categoryNames, List.find?,
    h1, h2, h3, h4, h5, h6]

/-- Effects of a run whose enhancement hook raises while everything else
succeeds: the counterexample input for C2. -/
def enhanceFailEffects : GenEffects :=
  ⟨Except.ok ("proj", emptyStructure, ⟨[], [], []⟩, []),
   fun _ => Except.error "AI service down", true, none⟩

/-- C2 as stated is false: at a concrete input whose enhancement hook raises
on every content, `generate_readme` returns True, not False — the exception
is caught by the inner handler and generation continues with the basic
README. -/
theorem enhancement_exception_returns_true :
    (∀ s : String, enhanceFailEffects.enhance s = Except.error "AI service down")
    ∧ (generate_readme enhanceFailEffects none true true "ts").1 = Except.ok true :=
  ⟨fun _ => rfl, rfl⟩

/-- C2 amended: `generate_readme` returns a boolean and never propagates an
exception; an exception during analysis or the final write results in the
return value False, while an exception during enhancement is caught and
generation continues with the unenhanced content, as if enhancement had been
disabled. -/
theorem generate_readme_exception_policy :
    (∀ (fx : GenEffects) (ob : Option String) (force uai : Bool) (ts : String),
      ∃ b : Bool, (generate_readme fx ob force uai ts).1 = Except.ok b)
    ∧ (∀ (fx : GenEffects) (ob : Option String) (force uai : Bool) (ts e : String),
      fx.analysis = Except.error e →
      (generate_readme fx ob force uai ts).1 = Except.ok false)
    ∧ (∀ (fx : GenEffects) (ob : Option String) (force uai : Bool) (ts : String),
      fx.write_ok = false →
      (generate_readme fx ob force uai ts).1 = Except.ok false)
    ∧ (∀ (fx : GenEffects) (ob : Option String) (force : Bool) (ts : String),
      (∀ s, ∃ e, fx.enhance s = Except.error e) →
      generate_readme fx ob force true ts = generate_readme fx ob force false ts) := by
  refine ⟨?_, ?_, ?_, ?_⟩
  · intro fx ob force uai ts
    unfold generate_readme
    dsimp only
    repeat' split
    all_goals exact ⟨_, rfl⟩
  · intro fx ob force uai ts e he
    unfold generate_readme
    cases hc : (ob.isSome && !force) with
    | true => simp [hc]
    | false => simp [hc, he]
  · intro fx ob force uai ts hw
    unfold generate_readme
    cases hc : (ob.isSome && !force) with
    | true => simp [hc]
    | false =>
      cases ha : fx.analysis with
      | error e => simp [hc, ha]
      | ok v =>
        obtain ⟨nm, st, deps, mains⟩ := v
        simp [hc, ha, hw]
  · intro fx ob force ts h
    unfold generate_readme
    cases hc : (ob.isSome && !force) with
    | true => simp [hc]
    | false =>
      cases ha : fx.analysis with
      | error e => simp [hc, ha]
      | ok v =>
        obtain ⟨nm, st, deps, mains⟩ := v
        obtain ⟨e, he⟩ := h (_generate_readme_content nm st deps mains ts)
        simp [hc, ha, he]

/-- Witness for the amended C2: the False-returning outcomes and the
enhancement fallback, applied at concrete effects. -/
theorem generate_readme_exception_policy_witness :
    (generate_readme ⟨Except.error "walk failed", fun s => Except.ok s, true, none⟩
        none true true "ts").1 = Except.ok false
    ∧ (generate_readme ⟨Except.ok ("proj", emptyStructure, ⟨[], [], []⟩, []),
        fun s => Except.ok s, false, none⟩ none true true "ts").1 = Except.ok false
    ∧ generate_readme enhanceFailEffects none true true "ts"
        = generate_readme enhanceFailEffects none true false "ts" :=
  ⟨generate_readme_exception_policy.2.1 _ none true true "ts" "walk failed" rfl,
   generate_readme_exception_policy.2.2.1 _ none true true "ts" rfl,
   generate_readme_exception_policy.2.2.2 enhanceFailEffects none true "ts"
     (fun _ => ⟨"AI service down", rfl⟩)⟩

/-- C4: only the first manifest candidate found is consulted: when
`requirements.txt` exists, the result is its parse, independent of every
later candidate; when `pyproject.toml` is the first found, the result is its
parse; and when the first found candidate is `setup.py` or `Pipfile`, the
Python dependency list is empty because those two are existence-checked but
never parsed. -/
theorem dependencies_first_candidate_only :
    (∀ (r : String) (b s p : Bool) (d : Option (List String)),
      get_dependencies_python ⟨true, some r, b, d, s, p⟩ = _parse_requirements_txt r)
    ∧ (∀ (d : Option (List String)) (s p : Bool),
      get_dependencies_python ⟨false, none, true, d, s, p⟩ = _parse_pyproject_toml d)
    ∧ (∀ (d : Option (List String)) (p : Bool),
      get_dependencies_python ⟨false, none, false, d, true, p⟩ = [])
    ∧ (∀ (d : Option (List String)),
      get_dependencies_python ⟨false, none, false, d, false, true⟩ = []) := by
  refine ⟨fun r b s p d => rfl, fun d s p => rfl, fun d p => rfl, fun d => rfl⟩

/-- C5: when the output file already exists and the force flag is false,
`generate_readme` returns `False` and the file's content is untouched, for
every pre-existing content and every behavior of the later steps. -/
theorem no_overwrite_without_force (fx : GenEffects) (c : String)
    (use_ai_enhancement : Bool) (ts : String) :
    generate_readme fx (some c) false use_ai_enhancement ts = (Except.ok false, some c) := by
  rfl

/-! ## Lemmas on stripping and the requirements parser -/

/-- Dropping a prefix of `p`-elements twice is the same as dropping it once. -/
theorem dropWhile_dropWhile {α : Type} (p : α → Bool) (l : List α) :
    (l.dropWhile p).dropWhile p = l.dropWhile p := by
  induction l with
  | nil => rfl
  | cons hd tl ih =>
    by_cases hp : p hd = true
    · simpa [List.dropWhile_cons, hp] using ih
    · simp [List.dropWhile_cons, hp]

/-- The head surviving a `dropWhile` fails the predicate. -/
theorem head_dropWhile_false {α : Type} (p : α → Bool) (l : List α) (a : α)
    (h : (l.dropWhile p).head? = some a) : p a = false := by
  induction l with
  | nil => simp at h
  | cons hd tl ih =>
    by_cases hp : p hd = true
    · rw [List.dropWhile_cons, if_pos hp] at h
      exact ih h
    · rw [List.dropWhile_cons, if_neg hp] at h
      simp only [List.head?_cons, Option.some.injEq] at h
      subst h
      simpa using hp

/-- The result of `pyStripList` has no leading whitespace left. -/
theorem pyStripList_dropWhile (l : List Char) :
    (pyStripList l).dropWhile isPySpace = pyStripList l := by
  have hsfx : (pyStripList l).reverse <:+ (l.dropWhile isPySpace).reverse := by
    rw [pyStripList, List.reverse_reverse]
    exact List.dropWhile_suffix isPySpace
  have hpre : pyStripList l <+: l.dropWhile isPySpace := List.reverse_suffix.mp hsfx
  cases hy : pyStripList l with
  | nil => rfl
  | cons b ys =>
    obtain ⟨t, ht⟩ := hpre
    rw [hy] at ht
    have hhead : (l.dropWhile isPySpace).head? = some b := by
      rw [← ht]; rfl
    have hb : isPySpace b = false := head_dropWhile_false isPySpace l b hhead
    simp [List.dropWhile_cons, hb]

/-- Stripping whitespace is idempotent. -/
theorem pyStripList_idem (l : List Char) :
    pyStripList (pyStripList l) = pyStripList l := by
  conv_lhs => rw [pyStripList]
  rw [pyStripList_dropWhile]
  have hrev : (pyStripList l).reverse = (l.dropWhile isPySpace).reverse.dropWhile isPySpace := by
    rw [pyStripList, List.reverse_reverse]
  rw [hrev, dropWhile_dropWhile, pyStripList]

/-- Every character kept by `pyStripList` came from the input. -/
theorem mem_pyStripList {c : Char} {l : List Char} (h : c ∈ pyStripList l) : c ∈ l := by
  rw [pyStripList, List.mem_reverse] at h
  have h2 : c ∈ (l.dropWhile isPySpace).reverse :=
    (List.dropWhile_sublist isPySpace).mem h
  rw [List.mem_reverse] at h2
  exact (List.dropWhile_sublist isPySpace).mem h2

/-- C8: version-specifier stripping is idempotent — applying the
name-extraction step (text before the first of `< > = ! ~`, then trim) to an
already-stripped name returns it unchanged, for every input string. -/
theorem strip_specifier_idempotent (s : String) :
    stripSpecifier (stripSpecifier s) = stripSpecifier s := by
  unfold stripSpecifier reSplitFirst pyStrip
  show String.mk (pyStripList (List.takeWhile _ (pyStripList (s.toList.takeWhile _)))) = _
  have htake :
      (pyStripList (s.toList.takeWhile (fun c => !specChars.contains c))).takeWhile
          (fun c => !specChars.contains c)
        = pyStripList (s.toList.takeWhile (fun c => !specChars.contains c)) := by
    rw [List.takeWhile_eq_self_iff]
    intro x hx
    have h3 : x ∈ s.toList.takeWhile (fun c => !specChars.contains c) := mem_pyStripList hx
    have h4 := List.mem_takeWhile_imp h3
    exact h4
  rw [htake, pyStripList_idem]
  rfl

/-- A conditional-append fold collects exactly the values its filter keeps,
appended to the accumulator in order. -/
theorem foldl_filterMap_general {α β : Type} (cond : α → Bool) (g : α → β)
    (l : List α) (acc : List β) :
    l.foldl (fun out x => if cond x then out ++ [g x] else out) acc
      = acc ++ l.filterMap (fun x => if cond x then some (g x) else none) := by
  induction l generalizing acc with
  | nil => simp
  | cons hd tl ih =>
    simp only [List.foldl_cons, List.filterMap_cons]
    cases hcond : cond hd with
    | true => simp [hcond, ih, List.append_assoc]
    | false => simp [hcond, ih]

/-- C7: the line-oriented parser skips blank lines and `#`-comment lines and
keeps, for every remaining line in file order, the trimmed text before the
first of `< > = ! ~`; on the scenario input it yields exactly
["flask", "requests"]. -/
theorem parse_requirements_lines :
    (∀ content : String,
      _parse_requirements_txt content
        = (pyReadlines content).filterMap
            (fun line =>
              let l := pyStrip line
              if l != "" && !(pyStartsWith l "#") then some (stripSpecifier l) else none))
    ∧ _parse_requirements_txt "flask==2.0.1\n# comment\nrequests>=2\n" = ["flask", "requests"] := by
  constructor
  · intro content
    unfold _parse_requirements_txt
    have h := foldl_filterMap_general
      (fun line => pyStrip line != "" && !(pyStartsWith (pyStrip line) "#"))
      (fun line => stripSpecifier (pyStrip line))
      (pyReadlines content) []
    simpa only [List.nil_append] using h
  · decide

/-! ## Lemmas and theorems for the rendered sections -/

/-- Unfolding `String.join` over a cons cell. -/
theorem string_join_cons (a : String) (l : List String) :
    String.join (a :: l) = a ++ String.join l := by
  simp only [String.join_eq, List.map_cons, List.flatten_cons]
  rfl

/-- A fold appending one bracketed line per element is the accumulator
followed by the joined lines. -/
theorem string_foldl_line (A B : String) (l : List String) (acc : String) :
    l.foldl (fun c f => c ++ A ++ f ++ B) acc
      = acc ++ String.join (l.map (fun f => A ++ f ++ B)) := by
  induction l generalizing acc with
  | nil => simp [String.join_eq]
  | cons hd tl ih =>
    rw [List.foldl_cons, ih, List.map_cons, string_join_cons]
    simp [String.append_assoc]

/-- C6: overflow truncation — a Structure category with more than 10 files
renders exactly its first 10 paths in lexicographic order plus one summary
line stating the count minus 10, and a Dependencies ecosystem with more than
10 names renders exactly its first 10 names plus one summary line stating
the count minus 10. -/
theorem overflow_truncation (files pydeps : List String)
    (h1 : files.length > 10) (h2 : pydeps.length > 10) :
    _generate_structure_section ⟨files, [], [], [], [], [], []⟩
      = "## Project Structure\n\n" ++ "```\n" ++ "Python Files" ++ ":\n"
        ++ String.join (((pySorted files).take 10).map (fun f => "  ├── " ++ f ++ "\n"))
        ++ "  └── ... and " ++ toString (files.length - 10) ++ " more files\n"
        ++ "\n" ++ "```\n\n"
    ∧ _generate_dependencies_section ⟨pydeps, [], []⟩
      = "## Dependencies\n\n" ++ "### Python\n\n"
        ++ String.join ((pydeps.take 10).map (fun d => "- " ++ d ++ "\n"))
        ++ "- ... and " ++ toString (pydeps.length - 10) ++ " more\n" ++ "\n" := by
  have hfe : files ≠ [] := List.ne_nil_of_length_pos (by omega)
  have hde : pydeps ≠ [] := List.ne_nil_of_length_pos (by omega)
  constructor
  · unfold _generate_structure_section structureItems
    simp [hfe, h1, categoryTitle]
    rw [string_foldl_line]
    simp [hfe, String.append_assoc]
  · unfold _generate_dependencies_section
    simp [hde, h2]
    rw [string_foldl_line]
    simp [hde, String.append_assoc]

/-- Concrete category list with 15 entries, for the C6 scenario. -/
def exampleFiles : List String :=
  ["m.py", "a.py", "k.py", "c.py", "o.py", "b.py", "j.py", "d.py",
   "n.py", "e.py", "i.py", "f.py", "h.py", "g.py", "l.py"]

/-- Concrete dependency list with 12 entries, for the C6 scenario. -/
def exampleDeps : List String :=
  ["d01", "d02", "d03", "d04", "d05", "d06", "d07", "d08", "d09", "d10", "d11", "d12"]

/-- Witness for C6: the overflow equations at a 15-file category and a
12-name ecosystem, the hypotheses discharged by computation. -/
theorem overflow_truncation_witness :
    _generate_structure_section ⟨exampleFiles, [], [], [], [], [], []⟩
      = "## Project Structure\n\n" ++ "```\n" ++ "Python Files" ++ ":\n"
        ++ String.join (((pySorted exampleFiles).take 10).map (fun f => "  ├── " ++ f ++ "\n"))
        ++ "  └── ... and " ++ toString (exampleFiles.length - 10) ++ " more files\n"
        ++ "\n" ++ "```\n\n"
    ∧ _generate_dependencies_section ⟨exampleDeps, [], []⟩
      = "## Dependencies\n\n" ++ "### Python\n\n"
        ++ String.join ((exampleDeps.take 10).map (fun d => "- " ++ d ++ "\n"))
        ++ "- ... and " ++ toString (exampleDeps.length - 10) ++ " more\n" ++ "\n" :=
  overflow_truncation exampleFiles exampleDeps (by decide) (by decide)

/-- C3 is violated by the code: the ignore test is substring containment, so
the glob-style pattern `*.pyc` never matches an actual bytecode file name.
Evaluated at the failing input, `module.pyc` is not skipped and lands in the
`other_files` category. -/
theorem pyc_file_not_ignored :
    skipFile "module.pyc" = false
    ∧ (get_file_structure (FSTree.dir "proj" [] ["module.pyc"])).other_files
        = ["module.pyc"] := by
  constructor
  · decide
  · decide

/-! ## Walk and structure invariants -/

/-- The file name is a suffix of the joined relative path. -/
theorem joinPath_suffix (base f : String) : f.toList <:+ (joinPath base f).toList := by
  unfold joinPath
  split
  · exact List.suffix_refl _
  · have h : ((base ++ "/") ++ f).toList = (base ++ "/").toList ++ f.toList := by
      simp [String.data_append]
    rw [h]
    exact List.suffix_append _ _

/-- Subdirectory half of the walk invariant, given the invariant for every
tree of size at most `n`. -/
theorem walkSubdirs_inv (n : Nat)
    (ih : ∀ (t : FSTree), sizeOf t ≤ n → ∀ (base p f : String),
      (p, f) ∈ walkEntries base t → skipFile f = false ∧ ∃ b', p = joinPath b' f) :
    ∀ (ds : List FSTree), (∀ d ∈ ds, sizeOf d ≤ n) → ∀ (base p f : String),
      (p, f) ∈ walkSubdirs base ds →
      skipFile f = false ∧ ∃ b', p = joinPath b' f := by
  intro ds
  induction ds with
  | nil =>
    intro _ base p f hmem
    rw [walkSubdirs] at hmem
    simp at hmem
  | cons d ds ihds =>
    intro hbound base p f hmem
    rw [walkSubdirs] at hmem
    rcases List.mem_append.mp hmem with hmem | hmem
    · split at hmem
      · simp at hmem
      · exact ih d (hbound d (by simp)) _ p f hmem
    · exact ihds (fun d' hd' => hbound d' (by simp [hd'])) base p f hmem

/-- Invariant of the walked entries: the file name passed the skip test and
the stored path is the join of some base with the file name. -/
theorem walkEntries_inv (n : Nat) :
    ∀ (t : FSTree), sizeOf t ≤ n → ∀ (base p f : String),
      (p, f) ∈ walkEntries base t →
      skipFile f = false ∧ ∃ b', p = joinPath b' f := by
  induction n with
  | zero =>
    intro t hsize
    cases t with
    | dir nm subdirs files =>
      rw [FSTree.dir.sizeOf_spec] at hsize
      omega
  | succ n ih =>
    intro t hsize base p f hmem
    cases t with
    | dir nm subdirs files =>
      rw [walkEntries] at hmem
      rcases List.mem_append.mp hmem with hmem | hmem
      · rcases List.mem_map.mp hmem with ⟨g, hg, heq⟩
        rcases List.mem_filter.mp hg with ⟨-, hskip⟩
        have hp : joinPath base g = p := congrArg Prod.fst heq
        have hf : g = f := congrArg Prod.snd heq
        subst hf
        refine ⟨by simpa using hskip, base, hp.symm⟩
      · have hbound : ∀ d ∈ subdirs, sizeOf d ≤ n := by
          intro d hd
          have h1 := List.sizeOf_lt_of_mem hd
          rw [FSTree.dir.sizeOf_spec] at hsize
          omega
        exact walkSubdirs_inv n ih subdirs hbound base p f hmem

/-- Concatenation of all seven category lists of a structure dictionary. -/
def allPaths (st : FileStructure) : List String :=
  st.python_files ++ st.javascript_files ++ st.html_files ++ st.css_files
    ++ st.config_files ++ st.documentation ++ st.other_files

/-- A path present after an `addFile` step was present before or is the
appended one. -/
theorem mem_allPaths_addFile {q : String} {st : FileStructure} {c p : String} :
    q ∈ allPaths (addFile st c p) → q ∈ allPaths st ∨ q = p := by
  unfold addFile
  repeat' split
  all_goals (intro h; unfold allPaths at h ⊢; simp [List.mem_append] at h ⊢; tauto)

/-- A path in any category of the built structure came from a walk entry. -/
theorem mem_allPaths_buildStructure :
    ∀ (es : List (String × String)) (q : String),
      q ∈ allPaths (buildStructure es) → ∃ f, (q, f) ∈ es := by
  have haux : ∀ (es : List (String × String)) (st : FileStructure) (q : String),
      q ∈ allPaths (es.foldl (fun st e => addFile st (_categorize_file e.2) e.1) st) →
      q ∈ allPaths st ∨ ∃ f, (q, f) ∈ es := by
    intro es
    induction es with
    | nil => intro st q h; exact Or.inl h
    | cons e es ih =>
      intro st q h
      rw [List.foldl_cons] at h
      rcases ih _ q h with h2 | h2
      · rcases mem_allPaths_addFile h2 with h3 | h3
        · exact Or.inl h3
        · exact Or.inr ⟨e.2, by simp [h3]⟩
      · rcases h2 with ⟨f, hf⟩
        exact Or.inr ⟨f, List.mem_cons_of_mem _ hf⟩
  intro es q h
  rcases haux es emptyStructure q h with h2 | h2
  · simp [allPaths, emptyStructure] at h2
  · exact h2

/-- The `config_files` list of an `addFile` step. -/
theorem config_files_addFile (st : FileStructure) (c p : String) :
    (addFile st c p).config_files
      = if c = "config_files" then st.config_files ++ [p] else st.config_files := by
  unfold addFile
  repeat' split
  all_goals first
    | rfl
    | simp_all

/-- A path in `config_files` of the built structure came from a walk entry
whose file name was classified `config_files`. -/
theorem mem_config_buildStructure :
    ∀ (es : List (String × String)) (q : String),
      q ∈ (buildStructure es).config_files →
      ∃ f, (q, f) ∈ es ∧ _categorize_file f = "config_files" := by
  have haux : ∀ (es : List (String × String)) (st : FileStructure) (q : String),
      q ∈ (es.foldl (fun st e => addFile st (_categorize_file e.2) e.1) st).config_files →
      q ∈ st.config_files ∨ ∃ f, (q, f) ∈ es ∧ _categorize_file f = "config_files" := by
    intro es
    induction es with
    | nil => intro st q h; exact Or.inl h
    | cons e es ih =>
      intro st q h
      rw [List.foldl_cons] at h
      rcases ih _ q h with h2 | h2
      · rw [config_files_addFile] at h2
        split at h2
        · rcases List.mem_append.mp h2 with h3 | h3
          · exact Or.inl h3
          · refine Or.inr ⟨e.2, by simp_all, by assumption⟩
        · exact Or.inl h2
      · rcases h2 with ⟨f, hf, hc⟩
        exact Or.inr ⟨f, List.mem_cons_of_mem _ hf, hc⟩
  intro es q h
  rcases haux es emptyStructure q h with h2 | h2
  · simp [emptyStructure] at h2
  · exact h2

/-! ## The unreachable manifest-install branch (C9) -/

/-- Two suffixes of the same list with equal lengths coincide. -/
theorem suffix_eq_of_length {l a b : List Char} (ha : a <:+ l) (hb : b <:+ l)
    (hlen : a.length = b.length) : a = b := by
  rcases List.suffix_or_suffix_of_suffix ha hb with h | h
  · exact h.eq_of_length hlen
  · exact (h.eq_of_length hlen.symm).symm

/-- A list with a three-character tail other than `txt` cannot also have the
tail `txt`. -/
theorem no_txt_tail (pl s3 : List Char) (h3 : s3 <:+ pl)
    (htxt : ['t', 'x', 't'] <:+ pl) (hlen : s3.length = 3)
    (hne : s3 ≠ ['t', 'x', 't']) : False :=
  hne (suffix_eq_of_length h3 htxt (by rw [hlen]; rfl))

/-- A file classified `config_files` matched one of the six config suffixes. -/
theorem categorize_config_endswith (f : String) :
    _categorize_file f = "config_files" →
    pyEndsWithAny f [".json", ".yaml", ".yml", ".toml", ".ini", ".cfg"] = true := by
  unfold _categorize_file
  repeat' split
  all_goals (intro h; simp_all)

/-- A stored path of a config-classified walk entry never ends with
"requirements.txt": its file name ends in a config suffix whose last three
characters are not "txt". -/
theorem config_path_not_requirements (p f : String)
    (hjoin : ∃ b', p = joinPath b' f)
    (hcat : _categorize_file f = "config_files") :
    pyEndsWith p "requirements.txt" = false := by
  rcases hjoin with ⟨b', rfl⟩
  cases hreq : pyEndsWith (joinPath b' f) "requirements.txt" with
  | false => rfl
  | true =>
    exfalso
    unfold pyEndsWith at hreq
    have hsfx_req : "requirements.txt".toList <:+ (joinPath b' f).toList :=
      List.isSuffixOf_iff_suffix.mp hreq
    have htxt : ['t', 'x', 't'] <:+ (joinPath b' f).toList :=
      List.IsSuffix.trans (by decide) hsfx_req
    have hf : f.toList <:+ (joinPath b' f).toList := joinPath_suffix b' f
    have hany := categorize_config_endswith f hcat
    unfold pyEndsWithAny at hany
    rw [List.any_eq_true] at hany
    rcases hany with ⟨sfx, hmem, hends⟩
    unfold pyEndsWith at hends
    have hsfx : sfx.toList <:+ f.toList := List.isSuffixOf_iff_suffix.mp hends
    have hsp : sfx.toList <:+ (joinPath b' f).toList := hsfx.trans hf
    fin_cases hmem <;>
      first
        | exact no_txt_tail _ ['s', 'o', 'n']
            (List.IsSuffix.trans (by decide) hsp) htxt (by decide) (by decide)
        | exact no_txt_tail _ ['a', 'm', 'l']
            (List.IsSuffix.trans (by decide) hsp) htxt (by decide) (by decide)
        | exact no_txt_tail _ ['y', 'm', 'l']
            (List.IsSuffix.trans (by decide) hsp) htxt (by decide) (by decide)
        | exact no_txt_tail _ ['o', 'm', 'l']
            (List.IsSuffix.trans (by decide) hsp) htxt (by decide) (by decide)
        | exact no_txt_tail _ ['i', 'n', 'i']
            (List.IsSuffix.trans (by decide) hsp) htxt (by decide) (by decide)
        | exact no_txt_tail _ ['c', 'f', 'g']
            (List.IsSuffix.trans (by decide) hsp) htxt (by decide) (by decide)

/-- C9: the manifest-driven install branch is unreachable — a file named
`requirements.txt` ends in ".txt" and is classified documentation, so no
path in `config_files` ever ends with "requirements.txt", and with
non-empty Python dependencies the Installation section always emits the
explicit pip-install command with at most the first 5 names. -/
theorem install_branch_unreachable :
    _categorize_file "requirements.txt" = "documentation"
    ∧ (∀ t : FSTree,
        (get_file_structure t).config_files.any
          (fun f => pyEndsWith f "requirements.txt") = false)
    ∧ (∀ (t : FSTree) (deps : Dependencies), deps.python ≠ [] →
        _generate_installation_section deps (get_file_structure t)
          = "## Installation\n\n" ++ "### Python Dependencies\n\n" ++ "```bash\n"
            ++ ("pip install " ++ String.intercalate " " (deps.python.take 5) ++ "\n")
            ++ "```\n\n"
            ++ (if deps.node.isEmpty then ""
                else "### Node.js Dependencies\n\n" ++ "```bash\n"
                  ++ "npm install\n" ++ "```\n\n")) := by
  have hany : ∀ t : FSTree,
      (get_file_structure t).config_files.any
        (fun f => pyEndsWith f "requirements.txt") = false := by
    intro t
    rw [List.any_eq_false]
    intro x hxmem
    unfold get_file_structure at hxmem
    rcases mem_config_buildStructure _ x hxmem with ⟨f, hmem, hcat⟩
    rcases walkEntries_inv (sizeOf t) t le_rfl "" x f hmem with ⟨-, hjoin⟩
    simp [config_path_not_requirements x f hjoin hcat]
  refine ⟨by decide, hany, ?_⟩
  intro t deps hne
  have hpe : deps.python.isEmpty = false := List.isEmpty_eq_false.mpr hne
  unfold _generate_installation_section
  simp only [hany t, hpe]
  cases hnode : deps.node.isEmpty with
  | true => simp [hnode, String.append_assoc]
  | false => simp [hnode, String.append_assoc]

/-- Concrete project root for the C9 witness: contains `requirements.txt`
(classified documentation) and a real config file. -/
def exampleTree : FSTree :=
  FSTree.dir "proj" [] ["requirements.txt", "config.json", "app.py"]

/-- Witness for C9: at a concrete tree holding `requirements.txt` and with
two Python dependencies, the Installation section emits the explicit
pip-install list, not the manifest-driven command. -/
theorem install_branch_unreachable_witness :
    _generate_installation_section ⟨["flask", "requests"], [], []⟩
        (get_file_structure exampleTree)
      = "## Installation\n\n" ++ "### Python Dependencies\n\n" ++ "```bash\n"
        ++ ("pip install "
            ++ String.intercalate " " ((["flask", "requests"] : List String).take 5) ++ "\n")
        ++ "```\n\n"
        ++ (if ([] : List String).isEmpty then ""
            else "### Node.js Dependencies\n\n" ++ "```bash\n"
              ++ "npm install\n" ++ "```\n\n") :=
  install_branch_unreachable.2.2 exampleTree ⟨["flask", "requests"], [], []⟩ (by decide)

/-! ## Substring over-matching of the ignore set (C10) -/

/-- C10: the filename-ignore test is substring containment over the whole
ignore set, so an ordinary file whose name merely contains an ignore token —
"venv_setup_notes.md", an ordinary markdown file, not a bytecode or cache
file — is skipped: it yields no walk entry and appears in no category of the
structure dictionary, for every directory tree. -/
theorem substring_ignore_excludes_ordinary_files :
    (∀ f : String, skipFile f = true →
      ∀ (t : FSTree) (base p : String), (p, f) ∉ walkEntries base t)
    ∧ skipFile "venv_setup_notes.md" = true
    ∧ _categorize_file "venv_setup_notes.md" = "documentation"
    ∧ pyEndsWithAny "venv_setup_notes.md" [".pyc", ".pyo", ".pyd"] = false
    ∧ (∀ (t : FSTree) (item : String × List String),
        item ∈ structureItems (get_file_structure t) →
        "venv_setup_notes.md" ∉ item.2) := by
  have hgen : ∀ f : String, skipFile f = true →
      ∀ (t : FSTree) (base p : String), (p, f) ∉ walkEntries base t := by
    intro f hf t base p hmem
    have h := (walkEntries_inv (sizeOf t) t le_rfl base p f hmem).1
    rw [hf] at h
    exact absurd h (by decide)
  refine ⟨hgen, by decide, by decide, by decide, ?_⟩
  intro t item hitem hq
  have hall : "venv_setup_notes.md" ∈ allPaths (get_file_structure t) := by
    unfold structureItems at hitem
    simp at hitem
    unfold allPaths
    rcases hitem with rfl | rfl | rfl | rfl | rfl | rfl | rfl <;>
      (simp [List.mem_append] at hq ⊢; tauto)
  rcases mem_allPaths_buildStructure _ _ hall with ⟨f, hmem⟩
  rcases walkEntries_inv (sizeOf t) t le_rfl "" _ f hmem with ⟨hskip, b', hjoin⟩
  by_cases hb : b' = ""
  · rw [hb] at hjoin
    simp [joinPath] at hjoin
    rw [← hjoin] at hskip
    exact absurd hskip (by decide)
  · rw [joinPath, if_neg hb] at hjoin
    have hslash : ('/' : Char) ∈ "venv_setup_notes.md".toList := by
      rw [hjoin]
      simp [String.data_append, String.toList]
    exact absurd hslash (by decide)

/-- Witness for C10: the concrete skipped entry at a concrete tree. -/
theorem substring_ignore_excludes_ordinary_files_witness :
    ("venv_setup_notes.md", "venv_setup_notes.md")
      ∉ walkEntries "" (FSTree.dir "proj" [] ["venv_setup_notes.md"]) :=
  substring_ignore_excludes_ordinary_files.1 "venv_setup_notes.md" (by decide)
    (FSTree.dir "proj" [] ["venv_setup_notes.md"]) "" "venv_setup_notes.md"
